import Mathlib

/-!
# Verification of the node-api-mock customer service

Shallow embedding of `src/utils/customerFactory.js` and the route handlers of
`src/app.js` (the mock customer REST service), together with proofs of the
behavioural claims about record generation, lookup, update, delete and listing.

JavaScript values that flow through the service (record fields, request bodies,
query parameters) are modelled by `JSVal`; JavaScript numbers by `JSNum`, with
the finite numbers carried by `ℚ` (every number the service manipulates is an
integral identifier, for which rational arithmetic coincides with IEEE-754
doubles).  `undefined` is modelled by `Option.none` at each use site.
Mutation of the request object performed by `generate` (`req.body.id = ...`)
is modelled by returning the updated request alongside the produced record;
a JavaScript `TypeError` (property access on `undefined`) is modelled by
`Option.none` in `generate`'s result.
-/

/-- JavaScript numbers: `NaN`, the two infinities, and finite values.
Finite values are carried by `ℚ`; all numbers this service actually
produces are integers, where `ℚ` and IEEE-754 doubles agree. -/
inductive JSNum where
  | nan    : JSNum
  | inf    : JSNum
  | negInf : JSNum
  | fin    : ℚ → JSNum
deriving DecidableEq, Repr

/-- JavaScript values appearing in record fields, bodies and queries:
strings, numbers, booleans and `null`.  `undefined` is `Option.none`
at each use site. -/
inductive JSVal where
  | str     : String → JSVal
  | num     : JSNum → JSVal
  | boolean : Bool → JSVal
  | null    : JSVal
deriving DecidableEq, Repr

/-- JavaScript truthiness of a present value (`undefined`, i.e. `none`,
is handled at each use site and is falsy). -/
def truthy : JSVal → Bool
  | .str s => s != ""
  | .num .nan => false
  | .num (.fin q) => q ≠ 0
  | .num .inf => true
  | .num .negInf => true
  | .boolean b => b
  | .null => false

/-- JavaScript truthiness of a possibly-`undefined` value. -/
def truthyOpt : Option JSVal → Bool
  | none => false
  | some v => truthy v

/-- `a || b` on possibly-`undefined` JavaScript values. -/
def jsOr (a b : Option JSVal) : Option JSVal :=
  if truthyOpt a then a else b

/-- `String(n)` / `Number.prototype.toString` for a JavaScript number.
For finite integers this is the usual decimal representation.  Non-integral
and exponent-range formatting is not exercised by any claim; a non-integral
rational is rendered as `num/den` as a placeholder. -/
def jsNumToString : JSNum → String
  | .nan => "NaN"
  | .inf => "Infinity"
  | .negInf => "-Infinity"
  | .fin q => if q.den = 1 then q.num.repr else q.num.repr ++ "/" ++ q.den.repr

/-- `String(v)` / `.toString()` for a JavaScript value. -/
def jsToString : JSVal → String
  | .str s => s
  | .num n => jsNumToString n
  | .boolean b => if b then "true" else "false"
  | .null => "null"

/-- JavaScript strict equality `===` on values: values of different types are
never equal; `NaN === NaN` is false. -/
def jsStrictEq : JSVal → JSVal → Bool
  | .str a, .str b => a = b
  | .num a, .num b =>
      match a, b with
      | .fin x, .fin y => x = y
      | .inf, .inf => true
      | .negInf, .negInf => true
      | _, _ => false
  | .boolean a, .boolean b => a = b
  | .null, .null => true
  | _, _ => false

/-- JavaScript whitespace (the characters relevant to this service's inputs;
the full Unicode whitespace set of the language is not enumerated). -/
def jsWS (c : Char) : Bool :=
  c == ' ' || c == '\t' || c == '\n' || c == '\r'

/-- Trim whitespace from both ends of a character list. -/
def trimWS (l : List Char) : List Char :=
  ((l.dropWhile jsWS).reverse.dropWhile jsWS).reverse

/-- Digit run at the front of a character list (`List.span Char.isDigit`). -/
def spanDigits (l : List Char) : List Char × List Char :=
  l.span Char.isDigit

/-- Value of a decimal digit list, most significant first. -/
def digitsToNat (l : List Char) : Nat :=
  l.foldl (fun a c => 10 * a + (c.toNat - 48)) 0

/-- Parse an unsigned decimal literal `digits [ '.' digits ]` from the front
of a character list, returning its value and the unconsumed rest
(exponent suffixes are not modelled; no claim exercises them). -/
def parseDecChars (l : List Char) : Option (ℚ × List Char) :=
  let p := spanDigits l
  match p.2 with
  | '.' :: r2 =>
      let pf := spanDigits r2
      if p.1 = [] ∧ pf.1 = [] then none
      else some ((digitsToNat p.1 : ℚ) + (digitsToNat pf.1 : ℚ) / (10 ^ pf.1.length : ℚ), pf.2)
  | _ => if p.1 = [] then none else some ((digitsToNat p.1 : ℚ), p.2)

/-- Does the character list start with the literal `Infinity`? -/
def infinityLit : List Char → Bool
  | 'I' :: 'n' :: 'f' :: 'i' :: 'n' :: 'i' :: 't' :: 'y' :: _ => true
  | _ => false

/-- Negation of a JavaScript number. -/
def jsNeg : JSNum → JSNum
  | .nan => .nan
  | .inf => .negInf
  | .negInf => .inf
  | .fin q => .fin (-q)

/-- Unsigned part of `parseFloat`: `Infinity`, or a decimal prefix,
else `NaN`. -/
def parseFloatUnsigned (l : List Char) : JSNum :=
  if infinityLit l then .inf
  else
    match parseDecChars l with
    | some (q, _) => .fin q
    | none => .nan

/-- `parseFloat` on a string: skip leading whitespace, optional sign, then
the longest numeric prefix; `NaN` if none. -/
def parseFloatStr (s : String) : JSNum :=
  match trimWS s.toList with
  | '-' :: rest => jsNeg (parseFloatUnsigned rest)
  | '+' :: rest => parseFloatUnsigned rest
  | rest => parseFloatUnsigned rest

/-- `parseFloat(v)` for a possibly-`undefined` argument.  `parseFloat` first
converts its argument to a string; for a number argument the string conversion
round-trips (`parseFloat(String(n)) = n` for every JavaScript number, including
`NaN` and the infinities), so that case is the identity.  `undefined`, `null`
and booleans stringify to non-numeric text, giving `NaN`. -/
def parseFloatJS : Option JSVal → JSNum
  | none => .nan
  | some (.str s) => parseFloatStr s
  | some (.num n) => n
  | some (.boolean _) => .nan
  | some .null => .nan

/-- `ToNumber` coercion of a string (used by `Math.max` on non-number ids):
whitespace-only is `0`, otherwise the whole trimmed string must be a signed
decimal or `Infinity` literal, else `NaN` (hex and exponent forms are not
modelled; no claim exercises them). -/
def toNumberStr (s : String) : JSNum :=
  match trimWS s.toList with
  | [] => .fin 0
  | '-' :: rest =>
      if infinityLit rest ∧ rest.length = 8 then .negInf
      else match parseDecChars rest with
           | some (q, []) => .fin (-q)
           | _ => .nan
  | '+' :: rest =>
      if infinityLit rest ∧ rest.length = 8 then .inf
      else match parseDecChars rest with
           | some (q, []) => .fin q
           | _ => .nan
  | rest =>
      if infinityLit rest ∧ rest.length = 8 then .inf
      else match parseDecChars rest with
           | some (q, []) => .fin q
           | _ => .nan

/-- `ToNumber` coercion of a possibly-`undefined` JavaScript value. -/
def jsToNumber : Option JSVal → JSNum
  | none => .nan
  | some (.num n) => n
  | some (.str s) => toNumberStr s
  | some (.boolean b) => .fin (if b then 1 else 0)
  | some .null => .fin 0

/-- Binary `Math.max`: `NaN` absorbs, otherwise the larger value. -/
def jsMax2 : JSNum → JSNum → JSNum
  | .nan, _ => .nan
  | _, .nan => .nan
  | .inf, _ => .inf
  | _, .inf => .inf
  | .negInf, b => b
  | a, .negInf => a
  | .fin x, .fin y => .fin (max x y)

/-- `Math.max(...l)`: fold of `jsMax2` starting from `-Infinity`
(the value of `Math.max()` with no arguments). -/
def jsMaxList (l : List JSNum) : JSNum :=
  l.foldl jsMax2 .negInf

/-- `n + 1` on a JavaScript number. -/
def jsAdd1 : JSNum → JSNum
  | .nan => .nan
  | .inf => .inf
  | .negInf => .negInf
  | .fin q => .fin (q + 1)

/-- Is the JavaScript number finite (`Number.isFinite`)? -/
def JSNum.isFiniteNum : JSNum → Bool
  | .fin _ => true
  | _ => false

/-- A customer record as stored in the collection (`customerExamples`).
Every record produced by the factory has all nine fields; seed records are
complete objects of the same shape (data model of the seed dataset). -/
structure Customer where
  id         : JSVal
  name       : JSVal
  address    : JSVal
  phone      : JSVal
  email      : JSVal
  lastupdate : JSVal
  country    : JSVal
  active     : JSVal
  contact    : JSVal
deriving DecidableEq, Repr

/-- An untrusted request payload (`req.body` or `req.query`): a mapping with
the named optional fields the service reads.  A missing field is `none`
(JavaScript `undefined`).  `qty` is only ever read from query payloads. -/
structure Payload where
  id         : Option JSVal := none
  name       : Option JSVal := none
  address    : Option JSVal := none
  phone      : Option JSVal := none
  email      : Option JSVal := none
  lastupdate : Option JSVal := none
  country    : Option JSVal := none
  active     : Option JSVal := none
  contact    : Option JSVal := none
  qty        : Option JSVal := none
deriving DecidableEq, Repr

/-- A request as seen by the handlers: `req.body` and `req.query`, each an
object or `undefined` (with `express.json()` mounted the body is at least
`{}`, and Express always defines `req.query`, but the handlers are modelled
for an arbitrary request object). -/
structure Req where
  body  : Option Payload := none
  query : Option Payload := none
deriving DecidableEq, Repr

/-- `v || d` defaulting used by the factory: the payload's value if present
and truthy, else the default. -/
def orDefault (v : Option JSVal) (d : JSVal) : JSVal :=
  match v with
  | some x => if truthy x then x else d
  | none => d

/-- `customerFactory.generate(req, keepID)` over an explicit store and
current-time string.  Returns the produced record together with the request
after `generate`'s assignment to `req.body.id`; `none` models the
`TypeError` thrown when `req.body` (or, on the fallback read, `req.query`)
is `undefined`.  `req.body.id || req.query.id` short-circuits, so the query
is only dereferenced when the body id is absent or falsy. -/
def generate (req : Req) (keepID : Bool) (store : List Customer) (now : String) :
    Option (Customer × Req) :=
  match req.body with
  | none => none
  | some body =>
    let idRes : Option (Option JSVal) :=
      if keepID then
        match body.id with
        | some v =>
          if truthy v then some (some v)
          else
            match req.query with
            | none => none
            | some q => some q.id
        | none =>
          match req.query with
          | none => none
          | some q => some q.id
      else
        some (some (.num (jsAdd1 (jsMaxList (store.map (fun c => jsToNumber (some c.id)))))))
    match idRes with
    | none => none
    | some newId =>
      let body' : Payload := { body with id := newId }
      some
        ({ id := .num (parseFloatJS body'.id)
           name := orDefault body'.name (.str "No Name")
           address := orDefault body'.address (.str "No Address")
           phone := orDefault body'.phone (.str "No Phone")
           email := orDefault body'.email (.str "No Email")
           lastupdate := orDefault body'.lastupdate (.str now)
           country := orDefault body'.country (.str "No Country")
           active := orDefault body'.active (.boolean true)
           contact := orDefault body'.contact (.str "No Contact") },
         { req with body := some body' })

/-- Which source `validate` reads the id from: `'body'` for PUT,
`'query'` for DELETE. -/
inductive SrcKind where
  | body : SrcKind
  | query : SrcKind
deriving DecidableEq, Repr

/-- `req[type]` selection. -/
def getSource (req : Req) : SrcKind → Option Payload
  | .body => req.body
  | .query => req.query

/-- The per-record test of `validate`'s filter:
`f.id.toString() === req[type].id` — the record's id converted to text,
strictly compared against the given id taken verbatim. -/
def recordMatches (idv : JSVal) (f : Customer) : Bool :=
  jsStrictEq (.str (jsToString f.id)) idv

/-- `customerFactory.validate(req, type)` over an explicit store: `-1` when
the source is `undefined` or its `id` is absent/falsy, else the index of the
first record whose id-as-text strictly equals the given id, or `-1` if none.
(`indexOf(search[0])` on the `filter` result is the index of the first
matching record.) -/
def validate (req : Req) (k : SrcKind) (store : List Customer) : Int :=
  match getSource req k with
  | none => -1
  | some src =>
    match src.id with
    | none => -1
    | some idv =>
      if truthy idv then
        match store.findIdx? (recordMatches idv) with
        | some i => (i : Int)
        | none => -1
      else -1

/-- The errors `changeOrDelete` can produce: the two thrown strings
(`'Body was not sent!'`, `'ID was not found!'`, mapped by the error handler
to a 400 client error) and a runtime `TypeError` (mapped to a 500). -/
inductive ApiError where
  | missingInput   : ApiError
  | recordNotFound : ApiError
  | typeError      : ApiError
deriving DecidableEq, Repr

deriving instance DecidableEq for Except

/-- Truncation toward zero (`ToIntegerOrInfinity` on a finite value). -/
def ratTrunc (q : ℚ) : Int :=
  if 0 ≤ q then ⌊q⌋ else ⌈q⌉

/-- `l.slice(0, n)` for a JavaScript number `n`: `NaN` truncates to `0`, a
negative end counts from the end of the list. -/
def jsSliceTo (l : List Customer) (n : JSNum) : List Customer :=
  match n with
  | .nan => []
  | .inf => l
  | .negInf => []
  | .fin q =>
    let e : Int := if q < 0 then (l.length : Int) + ratTrunc q else ratTrunc q
    l.take e.toNat

/-- The `GET /customers` handler body over an explicit store: start from the
whole store, filter by `f.id === req.query.id` when a truthy `id` query is
present, then `slice(0, qty)` when a truthy `qty` query is present.  The
store itself is never modified. -/
def listCustomers (q : Payload) (store : List Customer) : List Customer :=
  let r1 :=
    match q.id with
    | some v => if truthy v then store.filter (fun f => jsStrictEq f.id v) else store
    | none => store
  match q.qty with
  | some v => if truthy v then jsSliceTo r1 (jsToNumber (some v)) else r1
  | none => r1

/-- The `POST /customers` handler body: `generate(req)` with a fresh id and
the new record pushed onto the store; `none` models the `TypeError` when
`req.body` is `undefined`. -/
def createCustomer (req : Req) (store : List Customer) (now : String) :
    Option (Customer × List Customer) :=
  match generate req false store now with
  | none => none
  | some (c, _) => some (c, store ++ [c])

/-- `changeOrDelete(req, res, update)` over an explicit store: presence check
on the respective source (an object, even empty, is truthy), `validate`,
then `generate(req, true)` with `lastupdate` overwritten by the current
time, then `splice` — replacement for update, removal for delete.  Returns
the materialized record together with the new store contents. -/
def changeOrDelete (req : Req) (store : List Customer) (update : Bool) (now : String) :
    Except ApiError (Customer × List Customer) :=
  if (update && req.body.isSome) || (!update && req.query.isSome) then
    let v := validate req (if update then .body else .query) store
    if v = -1 then
      .error .recordNotFound
    else
      match generate req true store now with
      | none => .error .typeError
      | some (ce, _) =>
        let ce' : Customer := { ce with lastupdate := .str now }
        if update then
          .ok (ce', store.set v.toNat ce')
        else
          .ok (ce', store.eraseIdx v.toNat)
  else
    .error .missingInput

/-! ## Concrete fixtures -/

/-- The empty payload `{}` (the value `express.json()` gives `req.body`
when no JSON body is sent, and the value of `req.query` with no query
parameters). -/
def emptyPayload : Payload := {}

/-- A fully-populated stored record with numeric id `1` and name `"A"`;
the remaining fields carry distinctive values so that default-resetting
is observable. -/
def seedA : Customer :=
  { id := .num (.fin 1), name := .str "A", address := .str "Old Address",
    phone := .str "Old Phone", email := .str "Old Email",
    lastupdate := .str "Old Time", country := .str "Old Country",
    active := .boolean false, contact := .str "Old Contact" }

/-! ## Helper lemmas -/

theorem truthy_str_iff (s : String) : truthy (.str s) = true ↔ s ≠ "" := by
  simp [truthy]

theorem jsStrictEq_str_left (s : String) (v : JSVal) :
    jsStrictEq (.str s) v = true ↔ v = .str s := by
  cases v <;> simp [jsStrictEq, eq_comm]

theorem jsStrictEq_str_right (v : JSVal) (s : String) :
    jsStrictEq v (.str s) = true ↔ v = .str s := by
  cases v <;> simp [jsStrictEq]

theorem recordMatches_iff (idv : JSVal) (f : Customer) :
    recordMatches idv f = true ↔ idv = .str (jsToString f.id) := by
  simp [recordMatches, jsStrictEq_str_left]

theorem orDefault_of_truthyOpt_false (v : Option JSVal) (d : JSVal)
    (h : truthyOpt v = false) : orDefault v d = d := by
  cases v with
  | none => rfl
  | some x => simp [truthyOpt] at h; simp [orDefault, h]

theorem orDefault_of_truthy (x : JSVal) (d : JSVal) (h : truthy x = true) :
    orDefault (some x) d = x := by
  simp [orDefault, h]

/-- The common shape of every successful `generate` result: the record's
non-id fields are the defaulted payload fields, the id is `parseFloat` of
the (re)assigned body id, and the returned request is the input request
with exactly that id written into its body. -/
theorem generate_shape (req : Req) (p : Payload) (keepID : Bool) (store : List Customer)
    (now : String) (c : Customer) (req' : Req)
    (hb : req.body = some p) (hg : generate req keepID store now = some (c, req')) :
    ∃ newId : Option JSVal,
      c = { id := .num (parseFloatJS newId),
            name := orDefault p.name (.str "No Name"),
            address := orDefault p.address (.str "No Address"),
            phone := orDefault p.phone (.str "No Phone"),
            email := orDefault p.email (.str "No Email"),
            lastupdate := orDefault p.lastupdate (.str now),
            country := orDefault p.country (.str "No Country"),
            active := orDefault p.active (.boolean true),
            contact := orDefault p.contact (.str "No Contact") } ∧
      req' = { req with body := some { p with id := newId } } := by
  obtain ⟨b, qq⟩ := req
  simp only [Req.body] at hb
  subst hb
  unfold generate at hg
  cases keepID with
  | false =>
    simp only [Bool.false_eq_true, if_neg, ite_false] at hg
    injection hg with hg
    injection hg with hc hr
    exact ⟨_, hc.symm, hr.symm⟩
  | true =>
    simp only [ite_true] at hg
    cases hid : p.id with
    | none =>
      rw [hid] at hg
      cases qq with
      | none => simp at hg
      | some q =>
        simp only at hg
        injection hg with hg
        injection hg with hc hr
        exact ⟨_, hc.symm, hr.symm⟩
    | some v =>
      rw [hid] at hg
      by_cases htv : truthy v = true
      · simp only [htv, ite_true] at hg
        injection hg with hg
        injection hg with hc hr
        exact ⟨_, hc.symm, hr.symm⟩
      · simp only [Bool.not_eq_true] at htv
        simp only [htv, Bool.false_eq_true, ite_false] at hg
        cases qq with
        | none => simp at hg
        | some q =>
          simp only at hg
          injection hg with hg
          injection hg with hc hr
          exact ⟨_, hc.symm, hr.symm⟩

theorem foldl_jsMax2_fin (l : List JSNum) (a : ℚ)
    (h : ∀ x ∈ l, ∃ q : ℚ, x = JSNum.fin q) :
    ∃ M : ℚ, l.foldl jsMax2 (.fin a) = .fin M ∧ a ≤ M ∧
      (∀ q : ℚ, JSNum.fin q ∈ l → q ≤ M) ∧ (M = a ∨ JSNum.fin M ∈ l) := by
  induction l generalizing a with
  | nil => exact ⟨a, rfl, le_refl a, by simp, Or.inl rfl⟩
  | cons x xs ih =>
    obtain ⟨q0, rfl⟩ := h x (List.mem_cons_self x xs)
    obtain ⟨M, hM, haM, hall, hmem⟩ :=
      ih (max a q0) (fun y hy => h y (List.mem_cons_of_mem _ hy))
    refine ⟨M, ?_, le_trans (le_max_left a q0) haM, ?_, ?_⟩
    · simpa [jsMax2] using hM
    · intro q hq
      rcases List.mem_cons.1 hq with h1 | h2
      · have : q = q0 := by injection h1
        exact this ▸ le_trans (le_max_right a q0) haM
      · exact hall q h2
    · rcases hmem with rfl | hm
      · rcases max_choice a q0 with hc | hc
        · exact Or.inl hc
        · exact Or.inr (by rw [hc]; exact List.mem_cons_self _ _)
      · exact Or.inr (List.mem_cons_of_mem _ hm)

theorem jsMaxList_fin (l : List JSNum) (hne : l ≠ [])
    (h : ∀ x ∈ l, ∃ q : ℚ, x = JSNum.fin q) :
    ∃ M : ℚ, jsMaxList l = .fin M ∧
      (∀ q : ℚ, JSNum.fin q ∈ l → q ≤ M) ∧ JSNum.fin M ∈ l := by
  match l, hne with
  | x :: xs, _ =>
    obtain ⟨q0, rfl⟩ := h x (List.mem_cons_self x xs)
    obtain ⟨M, hM, hq0, hall, hmem⟩ :=
      foldl_jsMax2_fin xs q0 (fun y hy => h y (List.mem_cons_of_mem _ hy))
    refine ⟨M, ?_, ?_, ?_⟩
    · simpa [jsMaxList, jsMax2] using hM
    · intro q hq
      rcases List.mem_cons.1 hq with h1 | h2
      · have : q = q0 := by injection h1
        exact this ▸ hq0
      · exact hall q h2
    · rcases hmem with rfl | hm
      · exact List.mem_cons_self _ _
      · exact List.mem_cons_of_mem _ hm

/-! ## Claim C1 -/

/-- Claim C1 (amended): in every record returned by `generate`, each text
field (name, address, phone, email, country, contact) that is absent or
falsy in the payload is given its placeholder default, and the `active`
field is `true` whenever the payload's `active` is absent, falsy, or a
boolean — but a truthy non-boolean `active` value is passed through
verbatim rather than being overwritten to `true`. -/
theorem generate_field_defaults (req : Req) (p : Payload) (keepID : Bool)
    (store : List Customer) (now : String) (c : Customer) (req' : Req)
    (hb : req.body = some p) (hg : generate req keepID store now = some (c, req')) :
    (truthyOpt p.name = false → c.name = .str "No Name") ∧
    (truthyOpt p.address = false → c.address = .str "No Address") ∧
    (truthyOpt p.phone = false → c.phone = .str "No Phone") ∧
    (truthyOpt p.email = false → c.email = .str "No Email") ∧
    (truthyOpt p.country = false → c.country = .str "No Country") ∧
    (truthyOpt p.contact = false → c.contact = .str "No Contact") ∧
    (truthyOpt p.active = false → c.active = .boolean true) ∧
    (∀ b : Bool, p.active = some (.boolean b) → c.active = .boolean true) ∧
    (∀ v : JSVal, p.active = some v → truthy v = true → c.active = v) := by
  obtain ⟨newId, hc, -⟩ := generate_shape req p keepID store now c req' hb hg
  subst hc
  refine ⟨fun h => orDefault_of_truthyOpt_false _ _ h,
          fun h => orDefault_of_truthyOpt_false _ _ h,
          fun h => orDefault_of_truthyOpt_false _ _ h,
          fun h => orDefault_of_truthyOpt_false _ _ h,
          fun h => orDefault_of_truthyOpt_false _ _ h,
          fun h => orDefault_of_truthyOpt_false _ _ h,
          fun h => orDefault_of_truthyOpt_false _ _ h, ?_, ?_⟩
  · intro b hab
    cases b with
    | true => simp only [hab]; exact orDefault_of_truthy _ _ rfl
    | false =>
      simp only [hab]
      exact orDefault_of_truthyOpt_false _ _ (by simp [truthyOpt, truthy])
  · intro v hav htv
    simp only [hav]
    exact orDefault_of_truthy _ _ htv

/-- Fixtures for the C1 counterexample and witness. -/
def reqC1cex : Req :=
  { body := some { emptyPayload with active := some (.num (.fin 1)) }, query := none }

def reqC1w : Req :=
  { body := some { emptyPayload with name := some (.str "") }, query := none }

def recC1w : Customer :=
  { id := .num .negInf, name := .str "No Name", address := .str "No Address",
    phone := .str "No Phone", email := .str "No Email", lastupdate := .str "T",
    country := .str "No Country", active := .boolean true, contact := .str "No Contact" }

def reqC1wOut : Req :=
  { body := some { emptyPayload with name := some (.str ""), id := some (.num .negInf) },
    query := none }

/-- Claim C1 counterexample: a create payload that sends `active` as the
truthy number `1` gets a record whose `active` field is `1`, not the boolean
`true` — refuting "the returned record's active field is true regardless of
the value sent for active". -/
theorem generate_active_not_forced_true_cex :
    (generate reqC1cex false [] "T").map (fun x => x.1.active) = some (.num (.fin 1)) ∧
    JSVal.num (.fin 1) ≠ .boolean true := by
  exact ⟨by decide, by decide⟩

/-- Witness for the C1 theorem at a concrete input: a payload whose `name`
is the falsy empty string gets the `"No Name"` default. -/
theorem generate_field_defaults_witness :
    (generate reqC1w false [] "T" = some (recC1w, reqC1wOut)) ∧ recC1w.name = .str "No Name" := by
  exact ⟨by decide,
    (generate_field_defaults reqC1w { emptyPayload with name := some (.str "") } false [] "T"
      recC1w reqC1wOut rfl (by decide)).1 (by decide)⟩

/-! ## Claim C8 -/

/-- Claim C8 (amended): `generate` never modifies the Store and returns the
query and every non-id body field of its input unchanged, but it is not free
of side effects on the payload: it writes the computed id into `req.body.id`
(the counterexample below exhibits the overwrite). -/
theorem generate_frame (req : Req) (keepID : Bool) (store : List Customer) (now : String)
    (c : Customer) (req' : Req)
    (hg : generate req keepID store now = some (c, req')) :
    req'.query = req.query ∧
    ∃ p p' : Payload, req.body = some p ∧ req'.body = some p' ∧
      p'.name = p.name ∧ p'.address = p.address ∧ p'.phone = p.phone ∧
      p'.email = p.email ∧ p'.lastupdate = p.lastupdate ∧ p'.country = p.country ∧
      p'.active = p.active ∧ p'.contact = p.contact ∧ p'.qty = p.qty := by
  cases hbody : req.body with
  | none =>
    unfold generate at hg
    rw [hbody] at hg
    simp at hg
  | some p =>
    obtain ⟨newId, -, hr⟩ := generate_shape req p keepID store now c req' hbody hg
    subst hr
    exact ⟨rfl, p, { p with id := newId }, rfl, rfl, rfl, rfl, rfl, rfl, rfl, rfl, rfl, rfl, rfl⟩

/-- Fixtures for the C8 counterexample and witness. -/
def reqC8cex : Req := { body := some emptyPayload, query := none }

def reqC8cexOut : Req :=
  { body := some { emptyPayload with id := some (.num .negInf) }, query := none }

def reqC8w : Req := { body := some { emptyPayload with id := some (.str "9") }, query := none }

def recC8w : Customer :=
  { id := .num (.fin 9), name := .str "No Name", address := .str "No Address",
    phone := .str "No Phone", email := .str "No Email", lastupdate := .str "T",
    country := .str "No Country", active := .boolean true, contact := .str "No Contact" }

/-- Claim C8 counterexample: `generate` on a create request writes the
computed id into the payload — the request that comes back differs from the
one sent in, refuting "leaves ... its input payload unchanged". -/
theorem generate_mutates_payload_cex :
    (generate reqC8cex false [] "T").map Prod.snd = some reqC8cexOut ∧
    reqC8cexOut ≠ reqC8cex := by
  exact ⟨by decide, by decide⟩

/-- Witness for the C8 theorem at a concrete input (an update-style request
whose body id is already truthy, so the id write is value-preserving). -/
theorem generate_frame_witness :
    (generate reqC8w true [] "T" = some (recC8w, reqC8w)) ∧
    (reqC8w.query = reqC8w.query ∧
      ∃ p p' : Payload, reqC8w.body = some p ∧ reqC8w.body = some p' ∧
        p'.name = p.name ∧ p'.address = p.address ∧ p'.phone = p.phone ∧
        p'.email = p.email ∧ p'.lastupdate = p.lastupdate ∧ p'.country = p.country ∧
        p'.active = p.active ∧ p'.contact = p.contact ∧ p'.qty = p.qty) := by
  exact ⟨by decide, generate_frame reqC8w true [] "T" recC8w reqC8w (by decide)⟩

/-! ## Claim C9 -/

/-- Claim C9: a create on an empty Store does not crash — the handler still
returns a record and appends it — but the record's id is `-Infinity`
(`Math.max()` of no arguments is `-Infinity`, and `-Infinity + 1` stays
`-Infinity`), which is not a finite, usable numeric id. -/
theorem create_empty_store_invalid_id (req : Req) (p : Payload) (now : String)
    (hb : req.body = some p) :
    ∃ c : Customer, createCustomer req [] now = some (c, [c]) ∧
      c.id = .num .negInf ∧ JSNum.isFiniteNum .negInf = false := by
  obtain ⟨b, qq⟩ := req
  simp only [Req.body] at hb
  subst hb
  exact ⟨{ id := .num .negInf,
           name := orDefault p.name (.str "No Name"),
           address := orDefault p.address (.str "No Address"),
           phone := orDefault p.phone (.str "No Phone"),
           email := orDefault p.email (.str "No Email"),
           lastupdate := orDefault p.lastupdate (.str now),
           country := orDefault p.country (.str "No Country"),
           active := orDefault p.active (.boolean true),
           contact := orDefault p.contact (.str "No Contact") }, rfl, rfl, rfl⟩

/-- Fixture: a create request with an empty JSON body. -/
def reqC9w : Req := { body := some emptyPayload, query := none }

/-- Witness for the C9 theorem: creating with an empty body on the empty
Store yields a record with id `-Infinity`. -/
theorem create_empty_store_invalid_id_witness :
    (reqC9w.body = some emptyPayload) ∧
    ∃ c : Customer, createCustomer reqC9w [] "T" = some (c, [c]) ∧
      c.id = .num .negInf ∧ JSNum.isFiniteNum .negInf = false := by
  exact ⟨rfl, create_empty_store_invalid_id reqC9w emptyPayload "T" rfl⟩

/-! ## Claim C2 -/

/-- Claim C2: on a non-empty Store whose record ids are all finite numbers,
a create appends a record whose id is `max(existing ids) + 1`; that id is
strictly greater than — hence distinct from — every id already in the Store
at the time of insertion. -/
theorem create_assigns_max_plus_one (req : Req) (p : Payload) (store : List Customer)
    (now : String)
    (hb : req.body = some p) (hne : store ≠ [])
    (hids : ∀ r ∈ store, ∃ q : ℚ, r.id = .num (.fin q)) :
    ∃ c : Customer, ∃ M : ℚ,
      createCustomer req store now = some (c, store ++ [c]) ∧
      c.id = .num (.fin (M + 1)) ∧
      (∀ r ∈ store, ∀ q : ℚ, r.id = .num (.fin q) → q ≤ M) ∧
      (∃ r ∈ store, r.id = .num (.fin M)) ∧
      (∀ r ∈ store, r.id ≠ c.id) := by
  obtain ⟨b, qq⟩ := req
  simp only [Req.body] at hb
  subst hb
  have hmapne : store.map (fun r => jsToNumber (some r.id)) ≠ [] := by
    simpa using hne
  have hmapfin : ∀ x ∈ store.map (fun r => jsToNumber (some r.id)), ∃ q : ℚ, x = JSNum.fin q := by
    intro x hx
    obtain ⟨r, hr, rfl⟩ := List.mem_map.1 hx
    obtain ⟨q, hq⟩ := hids r hr
    exact ⟨q, by rw [hq]; rfl⟩
  obtain ⟨M, hM, hall, hmem⟩ :=
    jsMaxList_fin (store.map fun r => jsToNumber (some r.id)) hmapne hmapfin
  have hall' : ∀ r ∈ store, ∀ q : ℚ, r.id = .num (.fin q) → q ≤ M := by
    intro r hr q hq
    exact hall q (List.mem_map.2 ⟨r, hr, by rw [hq]; rfl⟩)
  have hg : generate ⟨some p, qq⟩ false store now =
      some ({ id := .num (parseFloatJS (some (.num (jsAdd1 (jsMaxList (store.map fun r => jsToNumber (some r.id))))))),
              name := orDefault p.name (.str "No Name"),
              address := orDefault p.address (.str "No Address"),
              phone := orDefault p.phone (.str "No Phone"),
              email := orDefault p.email (.str "No Email"),
              lastupdate := orDefault p.lastupdate (.str now),
              country := orDefault p.country (.str "No Country"),
              active := orDefault p.active (.boolean true),
              contact := orDefault p.contact (.str "No Contact") },
            ⟨some { p with id := some (.num (jsAdd1 (jsMaxList (store.map fun r => jsToNumber (some r.id))))) }, qq⟩) := rfl
  rw [hM] at hg
  refine ⟨{ id := .num (.fin (M + 1)),
            name := orDefault p.name (.str "No Name"),
            address := orDefault p.address (.str "No Address"),
            phone := orDefault p.phone (.str "No Phone"),
            email := orDefault p.email (.str "No Email"),
            lastupdate := orDefault p.lastupdate (.str now),
            country := orDefault p.country (.str "No Country"),
            active := orDefault p.active (.boolean true),
            contact := orDefault p.contact (.str "No Contact") }, M, ?_, rfl, hall', ?_, ?_⟩
  · unfold createCustomer
    rw [hg]
    rfl
  · obtain ⟨r, hr, hrid⟩ := List.mem_map.1 hmem
    obtain ⟨q, hq⟩ := hids r hr
    rw [hq] at hrid
    have : q = M := by
      simp only [jsToNumber] at hrid
      injection hrid
    exact ⟨r, hr, by rw [hq, this]⟩
  · intro r hr hcontra
    have : (M + 1 : ℚ) ≤ M := hall' r hr (M + 1) hcontra
    linarith

/-- Fixture: a create request with an empty JSON body (for the C2 witness). -/
def reqC2w : Req := { body := some emptyPayload, query := none }

/-- Witness for the C2 theorem on the one-record Store `[seedA]`. -/
theorem create_assigns_max_plus_one_witness :
    (reqC2w.body = some emptyPayload ∧ ([seedA] : List Customer) ≠ [] ∧
      ∀ r ∈ [seedA], ∃ q : ℚ, r.id = .num (.fin q)) ∧
    (∃ c : Customer, ∃ M : ℚ,
      createCustomer reqC2w [seedA] "T" = some (c, [seedA] ++ [c]) ∧
      c.id = .num (.fin (M + 1)) ∧
      (∀ r ∈ [seedA], ∀ q : ℚ, r.id = .num (.fin q) → q ≤ M) ∧
      (∃ r ∈ [seedA], r.id = .num (.fin M)) ∧
      (∀ r ∈ [seedA], r.id ≠ c.id)) := by
  have hids : ∀ r ∈ [seedA], ∃ q : ℚ, r.id = .num (.fin q) := by
    intro r hr
    rw [List.mem_singleton] at hr
    exact ⟨1, by rw [hr]; rfl⟩
  exact ⟨⟨rfl, by decide, hids⟩,
    create_assigns_max_plus_one reqC2w emptyPayload [seedA] "T" rfl (by decide) hids⟩

/-! ## Claim C10 -/

/-- Claim C10: whenever `validate` returns something other than `-1`, the
result is a nonnegative position strictly inside the Store, and the record
at that position has an id whose text form is exactly the id string taken
from the source; hence the in-place `splice` performed by `changeOrDelete`
after a successful validation always targets an existing position. -/
theorem validate_index_sound (req : Req) (k : SrcKind) (store : List Customer) (i : Int)
    (hv : validate req k store = i) (hne : i ≠ -1) :
    0 ≤ i ∧ ∃ h : i.toNat < store.length, ∃ src : Payload, ∃ s : String,
      getSource req k = some src ∧ src.id = some (.str s) ∧
      jsToString ((store.get ⟨i.toNat, h⟩).id) = s := by
  unfold validate at hv
  cases hsrc : getSource req k with
  | none =>
    rw [hsrc] at hv
    exact absurd hv.symm hne
  | some src =>
    simp only [hsrc] at hv
    cases hid : src.id with
    | none =>
      simp only [hid] at hv
      exact absurd hv.symm hne
    | some idv =>
      simp only [hid] at hv
      by_cases ht : truthy idv = true
      · rw [if_pos ht] at hv
        cases hf : store.findIdx? (recordMatches idv) with
        | none =>
          simp only [hf] at hv
          exact absurd hv.symm hne
        | some j =>
          simp only [hf] at hv
          subst hv
          obtain ⟨hj, hpj, -⟩ := List.findIdx?_eq_some_iff_getElem.1 hf
          have hidv : idv = .str (jsToString (store.get ⟨j, hj⟩).id) := by
            rw [List.get_eq_getElem]
            exact (recordMatches_iff _ _).1 hpj
          refine ⟨Int.ofNat_nonneg j, ?_⟩
          simp only [Int.toNat_ofNat]
          exact ⟨hj, src, jsToString (store.get ⟨j, hj⟩).id, rfl, by rw [hid, hidv], rfl⟩
      · rw [if_neg ht] at hv
        exact absurd hv.symm hne

/-- Fixture: a delete-style request whose query carries the id `"1"`
(for the C10 witness). -/
def reqC10w : Req := { body := none, query := some { emptyPayload with id := some (.str "1") } }

/-- Witness for the C10 theorem: validating id `"1"` against `[seedA]`
returns position `0`, which is inside the Store. -/
theorem validate_index_sound_witness :
    (validate reqC10w .query [seedA] = 0 ∧ (0 : Int) ≠ -1) ∧
    (0 ≤ (0 : Int) ∧ ∃ h : (0 : Int).toNat < ([seedA] : List Customer).length,
      ∃ src : Payload, ∃ s : String,
        getSource reqC10w .query = some src ∧ src.id = some (.str s) ∧
        jsToString ((([seedA] : List Customer).get ⟨(0 : Int).toNat, h⟩).id) = s) := by
  exact ⟨⟨by decide, by decide⟩,
    validate_index_sound reqC10w .query [seedA] 0 (by decide) (by decide)⟩

/-! ## Claim C3 -/

/-- Claim C3 (amended): given a source carrying a truthy `id`, `validate`
converts only each record's id to text and compares it with JavaScript
strict equality against the given id taken verbatim (no normalization of
the given side).  It returns the position of the first record whose id text
is exactly the given string, `-1` when no record matches — and always `-1`
when the given id is not a string (e.g. a JSON numeric id), even if a
record's id text coincides with the given value's text. -/
theorem validate_first_match_strict (req : Req) (k : SrcKind) (store : List Customer)
    (src : Payload) (idv : JSVal)
    (hs : getSource req k = some src) (hid : src.id = some idv) (ht : truthy idv = true) :
    ((validate req k store = -1) ↔ ∀ r ∈ store, JSVal.str (jsToString r.id) ≠ idv) ∧
    (∀ i : ℕ, validate req k store = (i : Int) →
      ∃ h : i < store.length,
        JSVal.str (jsToString (store.get ⟨i, h⟩).id) = idv ∧
        ∀ j : ℕ, ∀ hj : j < store.length, j < i →
          JSVal.str (jsToString (store.get ⟨j, hj⟩).id) ≠ idv) ∧
    ((∀ s : String, idv ≠ .str s) → validate req k store = -1) := by
  have hval : validate req k store =
      (match store.findIdx? (recordMatches idv) with
       | some i => (i : Int)
       | none => -1) := by
    unfold validate
    simp only [hs, hid, ht, if_true]
  cases hf : store.findIdx? (recordMatches idv) with
  | none =>
    have hnone := List.findIdx?_eq_none_iff.1 hf
    simp only [hf] at hval
    refine ⟨⟨fun _ r hr => ?_, fun _ => hval⟩, fun i hi => ?_, fun _ => hval⟩
    · intro hcontra
      have h2 : recordMatches idv r = true := (recordMatches_iff _ _).2 hcontra.symm
      rw [hnone r hr] at h2
      exact Bool.false_ne_true h2
    · exfalso
      rw [hval] at hi
      omega
  | some j =>
    simp only [hf] at hval
    obtain ⟨hj, hpj, hfirst⟩ := List.findIdx?_eq_some_iff_getElem.1 hf
    have hmatch : JSVal.str (jsToString (store.get ⟨j, hj⟩).id) = idv := by
      rw [List.get_eq_getElem]
      exact ((recordMatches_iff _ _).1 hpj).symm
    refine ⟨⟨fun h1 => ?_, fun h2 => ?_⟩, fun i hi => ?_, fun hnostr => ?_⟩
    · exfalso
      have hj1 : (j : Int) = -1 := hval.symm.trans h1
      have h0 : (0 : Int) ≤ (j : Int) := Int.natCast_nonneg j
      rw [hj1] at h0
      norm_num at h0
    · exact absurd hmatch (h2 _ (List.get_mem store j hj))
    · rw [hval] at hi
      have hij : j = i := by omega
      subst hij
      refine ⟨hj, hmatch, ?_⟩
      intro j' hj' hlt hcontra
      apply hfirst j' hlt
      exact (recordMatches_iff _ _).2 hcontra.symm
    · exact absurd hmatch.symm (hnostr _)

/-- Fixtures for the C3 counterexample and witness. -/
def reqC3cex : Req :=
  { body := some { emptyPayload with id := some (.num (.fin 1)) }, query := none }

def reqC3w : Req :=
  { body := none, query := some { emptyPayload with id := some (.str "2") } }

/-- Claim C3 counterexample: the Store `[seedA]` holds the record with
numeric id `1`, whose text form equals the text form of the given numeric
id `1` — yet `validate` returns `-1` instead of position `0`, because only
the record side is converted to text and `"1" === 1` is false. -/
theorem validate_numeric_id_cex :
    validate reqC3cex .body [seedA] = -1 ∧
    jsToString seedA.id = jsToString (.num (.fin 1)) ∧
    (-1 : Int) ≠ 0 := by
  exact ⟨by decide, by decide, by decide⟩

/-- Witness for the C3 theorem: looking up the (absent) text id `"2"` in
`[seedA]` returns `-1`, matching the no-record-matches characterization. -/
theorem validate_first_match_strict_witness :
    (truthy (.str "2") = true) ∧
    ((validate reqC3w .query [seedA] = -1) ↔
      ∀ r ∈ ([seedA] : List Customer), JSVal.str (jsToString r.id) ≠ .str "2") := by
  exact ⟨by decide,
    (validate_first_match_strict reqC3w .query [seedA]
      { emptyPayload with id := some (.str "2") } (.str "2") rfl rfl (by decide)).1⟩

/-! ## Claim C4 -/

/-- Fixtures for C4: the update payloads with numeric and textual id. -/
def reqC4cex : Req :=
  { body := some { emptyPayload with id := some (.num (.fin 1)), name := some (.str "B") },
    query := some emptyPayload }

def reqC4 : Req :=
  { body := some { emptyPayload with id := some (.str "1"), name := some (.str "B") },
    query := some emptyPayload }

def recC4 : Customer :=
  { id := .num (.fin 1), name := .str "B", address := .str "No Address",
    phone := .str "No Phone", email := .str "No Email", lastupdate := .str "T0",
    country := .str "No Country", active := .boolean true, contact := .str "No Contact" }

/-- Claim C4 counterexample: on the Store `[seedA]` (one record with numeric
id `1` and name `"A"`), an update whose payload is `{id: 1, name: "B"}` with
the id as a JSON number does not succeed: `validate` compares the record's
id text `"1"` strictly against the number `1`, finds no match, and the
operation fails with `RecordNotFound`. -/
theorem update_numeric_id_fails_cex :
    changeOrDelete reqC4cex [seedA] true "T0" = .error .recordNotFound := by
  decide

/-- Claim C4 (amended): the update of the claim's scenario succeeds only when
the payload carries the id in text form, `{id: "1", name: "B"}`; then the
record stored at the same position afterwards has numeric id `1`, name `"B"`,
and every field not re-supplied in the payload reset to its default — the old
record's other field values are not merged in. -/
theorem update_with_text_id_resets_fields :
    changeOrDelete reqC4 [seedA] true "T0" = .ok (recC4, [recC4]) ∧
    recC4.id = .num (.fin 1) ∧ recC4.name = .str "B" ∧
    recC4.address = .str "No Address" ∧ recC4.phone = .str "No Phone" ∧
    recC4.email = .str "No Email" ∧ recC4.country = .str "No Country" ∧
    recC4.active = .boolean true ∧ recC4.contact = .str "No Contact" ∧
    recC4.address ≠ seedA.address := by
  refine ⟨by decide, rfl, rfl, rfl, rfl, rfl, rfl, rfl, rfl, by decide⟩

/-! ## Claim C6 -/

theorem validate_eq_neg_one_of_no_id (req : Req) (k : SrcKind) (store : List Customer)
    (src : Payload) (hs : getSource req k = some src) (hid : truthyOpt src.id = false) :
    validate req k store = -1 := by
  unfold validate
  simp only [hs]
  cases h : src.id with
  | none => rfl
  | some v =>
    simp only [truthyOpt, h] at hid
    simp [hid]

/-- Claim C6 (amended): when the respective source (body for update, query
for delete) is present but carries no truthy id, `changeOrDelete` fails with
`RecordNotFound` — not `MissingInput` — because any present object (even an
empty one) passes the presence check and the missing id merely makes the
Locator report no match.  `MissingInput` (`'Body was not sent!'`) occurs
exactly when the respective source itself is absent.  On both error paths no
new store is produced, so the Store is left unchanged. -/
theorem changeOrDelete_no_id (req : Req) (store : List Customer) (update : Bool)
    (now : String) :
    (∀ src : Payload, (if update then req.body else req.query) = some src →
      truthyOpt src.id = false →
      changeOrDelete req store update now = .error .recordNotFound) ∧
    ((if update then req.body else req.query) = none →
      changeOrDelete req store update now = .error .missingInput) := by
  constructor
  · intro src hsrc hid
    have hv : validate req (if update then .body else .query) store = -1 := by
      refine validate_eq_neg_one_of_no_id req _ store src ?_ hid
      cases update with
      | true => simpa [getSource] using hsrc
      | false => simpa [getSource] using hsrc
    unfold changeOrDelete
    cases update with
    | true =>
      simp only [if_true] at hsrc hv ⊢
      simp [hsrc, hv]
    | false =>
      simp only [Bool.false_eq_true, if_neg, ite_false] at hsrc hv ⊢
      simp [hsrc, hv]
  · intro hnone
    unfold changeOrDelete
    cases update with
    | true =>
      simp only [if_true] at hnone
      simp [hnone]
    | false =>
      simp only [Bool.false_eq_true, if_neg, ite_false] at hnone
      simp [hnone]

/-- Fixtures for the C6 counterexample and witness. -/
def reqC6cex : Req := { body := some emptyPayload, query := some emptyPayload }

def reqC6w : Req := { body := some emptyPayload, query := none }

/-- Claim C6 counterexample: an update whose body is present but contains no
id (`{}`) fails with `RecordNotFound`, not `MissingInput`: the presence check
passes because `{}` is a truthy object, and the Locator then reports no
match. -/
theorem update_no_id_not_missing_input_cex :
    changeOrDelete reqC6cex [seedA] true "T0" = .error .recordNotFound ∧
    ApiError.recordNotFound ≠ ApiError.missingInput := by
  exact ⟨by decide, by decide⟩

/-- Witness for the C6 theorem: both branches at concrete inputs — an update
with an id-less body gives `RecordNotFound`; a delete with an absent query
gives `MissingInput`. -/
theorem changeOrDelete_no_id_witness :
    changeOrDelete reqC6w [seedA] true "T0" = .error .recordNotFound ∧
    changeOrDelete reqC6w [seedA] false "T0" = .error .missingInput := by
  exact ⟨(changeOrDelete_no_id reqC6w [seedA] true "T0").1 emptyPayload rfl (by decide),
         (changeOrDelete_no_id reqC6w [seedA] false "T0").2 rfl⟩

/-! ## Claim C7 -/

theorem filter_length_le_one (l : List Customer) (p : Customer → Bool)
    (h : ∀ i j : ℕ, ∀ hi : i < l.length, ∀ hj : j < l.length,
      p (l.get ⟨i, hi⟩) = true → p (l.get ⟨j, hj⟩) = true → i = j) :
    (l.filter p).length ≤ 1 := by
  induction l with
  | nil => simp
  | cons a t ih =>
    by_cases hpa : p a = true
    · have htnil : t.filter p = [] := by
        rw [List.filter_eq_nil_iff]
        intro x hx hpx
        obtain ⟨⟨k, hk⟩, hget⟩ := List.mem_iff_get.1 hx
        have h0 : (0 : ℕ) = k + 1 := by
          refine h 0 (k + 1) (Nat.succ_pos _) (Nat.succ_lt_succ hk) hpa ?_
          show p (t.get ⟨k, hk⟩) = true
          rw [hget]
          exact hpx
        exact Nat.succ_ne_zero k h0.symm
      rw [List.filter_cons_of_pos hpa, htnil]
      simp
    · rw [List.filter_cons_of_neg (by simpa using hpa)]
      refine ih ?_
      intro i j hi hj hpi hpj
      have := h (i + 1) (j + 1) (Nat.succ_lt_succ hi) (Nat.succ_lt_succ hj) hpi hpj
      omega

/-- Claim C7 (amended): on a Store whose records have pairwise textually
distinct ids (the Store uniqueness invariant), a list request with id filter
`x` and no qty filter returns at most one record; every returned record is a
record of the Store whose id is exactly the string `x` (and so textually
equals `x`); and the result is empty whenever no record's id textually
equals `x`.  The Store itself is not modified (the handler only filters).
Without the id-uniqueness invariant the "at most one" part fails — see the
counterexample with two records sharing the textual id `"1"`. -/
theorem list_id_filter_at_most_one (q : Payload) (store : List Customer) (x : String)
    (hqid : q.id = some (.str x)) (hx : x ≠ "") (hqty : q.qty = none)
    (huniq : ∀ i j : ℕ, ∀ hi : i < store.length, ∀ hj : j < store.length,
      jsToString (store.get ⟨i, hi⟩).id = jsToString (store.get ⟨j, hj⟩).id → i = j) :
    (listCustomers q store).length ≤ 1 ∧
    (∀ r ∈ listCustomers q store, r ∈ store ∧ r.id = .str x ∧ jsToString r.id = x) ∧
    ((∀ r ∈ store, jsToString r.id ≠ x) → listCustomers q store = []) := by
  have htx : truthy (.str x) = true := by simp [truthy, hx]
  have hlist : listCustomers q store = store.filter (fun f => jsStrictEq f.id (.str x)) := by
    unfold listCustomers
    simp only [hqid, hqty, htx, if_true]
  refine ⟨?_, ?_, ?_⟩
  · rw [hlist]
    refine filter_length_le_one store _ ?_
    intro i j hi hj hpi hpj
    rw [jsStrictEq_str_right] at hpi hpj
    exact huniq i j hi hj (by rw [hpi, hpj])
  · intro r hr
    rw [hlist] at hr
    obtain ⟨hmem, hp⟩ := List.mem_filter.1 hr
    rw [jsStrictEq_str_right] at hp
    exact ⟨hmem, hp, by rw [hp]; rfl⟩
  · intro hno
    rw [hlist, List.filter_eq_nil_iff]
    intro r hr hp
    rw [jsStrictEq_str_right] at hp
    exact hno r hr (by rw [hp]; rfl)

/-- Fixtures for the C7 counterexample and witness: two distinct records
sharing the textual id `"1"`, and the id-filter query. -/
def custS1A : Customer := { seedA with id := .str "1" }

def custS1B : Customer := { seedA with id := .str "1", name := .str "Z" }

def qC7cex : Payload := { emptyPayload with id := some (.str "1") }

def qC7w : Payload := { emptyPayload with id := some (.str "1"), qty := none }

/-- Claim C7 counterexample: on a Store holding two distinct records whose
ids are both the string `"1"`, the list request with id filter `"1"` returns
both of them — two records, refuting "contains at most one record" for an
arbitrary Store. -/
theorem list_id_filter_duplicates_cex :
    (listCustomers qC7cex [custS1A, custS1B]).length = 2 ∧ ¬ (2 ≤ 1) := by
  exact ⟨by decide, by decide⟩

/-- Witness for the C7 theorem on the single-record Store `[seedA]` with
filter `"1"` (the record's id is the number `1`, so the strict filter keeps
nothing and all three conclusions hold). -/
theorem list_id_filter_at_most_one_witness :
    (listCustomers qC7w [seedA]).length ≤ 1 ∧
    (∀ r ∈ listCustomers qC7w [seedA],
      r ∈ ([seedA] : List Customer) ∧ r.id = .str "1" ∧ jsToString r.id = "1") ∧
    ((∀ r ∈ ([seedA] : List Customer), jsToString r.id ≠ "1") →
      listCustomers qC7w [seedA] = []) := by
  exact list_id_filter_at_most_one qC7w [seedA] "1" rfl (by decide) rfl
    (fun i j hi hj _ => by
      simp only [List.length_singleton] at hi hj
      omega)

/-! ## Claim C5 -/

/-- Claim C5: on a Store in which exactly one position matches the id string
`s` carried by the delete request's query (the request's body being a present
object without a truthy id of its own, as `express.json` provides), the
delete removes the record at that position from the Store and returns the
request's materialized form — id `parseFloat(s)`, other fields defaulted
from the body — with `lastupdate` stamped to the current time; a second
delete with the same id on the resulting Store fails with `RecordNotFound`. -/
theorem delete_removes_then_not_found (pb pq : Payload) (store : List Customer)
    (now : String) (s : String) (i : ℕ)
    (hbid : pb.id = none) (hqid : pq.id = some (.str s)) (hs : s ≠ "")
    (hfind : store.findIdx? (recordMatches (.str s)) = some i)
    (huniq : ∀ j : ℕ, ∀ hj : j < store.length,
      recordMatches (.str s) (store.get ⟨j, hj⟩) = true → j = i) :
    ∃ c : Customer,
      changeOrDelete ⟨some pb, some pq⟩ store false now = .ok (c, store.eraseIdx i) ∧
      c.lastupdate = .str now ∧ c.id = .num (parseFloatStr s) ∧
      changeOrDelete ⟨some pb, some pq⟩ (store.eraseIdx i) false now =
        .error .recordNotFound := by
  have hts : truthy (.str s) = true := by simp [truthy, hs]
  have hine : ¬ ((i : Int) = -1) := by omega
  have hv1 : validate ⟨some pb, some pq⟩ .query store = (i : Int) := by
    unfold validate
    simp only [getSource]
    simp only [hqid, hts, if_true, hfind]
  have hgen : generate ⟨some pb, some pq⟩ true store now =
      some ({ id := .num (parseFloatJS (some (.str s))),
              name := orDefault pb.name (.str "No Name"),
              address := orDefault pb.address (.str "No Address"),
              phone := orDefault pb.phone (.str "No Phone"),
              email := orDefault pb.email (.str "No Email"),
              lastupdate := orDefault pb.lastupdate (.str now),
              country := orDefault pb.country (.str "No Country"),
              active := orDefault pb.active (.boolean true),
              contact := orDefault pb.contact (.str "No Contact") },
            ⟨some { pb with id := some (.str s) }, some pq⟩) := by
    unfold generate
    simp only [hbid, hqid, if_true]
  have hnomatch : ∀ x ∈ store.eraseIdx i, recordMatches (.str s) x = false := by
    intro x hx
    cases hb : recordMatches (.str s) x with
    | false => rfl
    | true =>
      exfalso
      rw [List.eraseIdx_eq_take_drop_succ] at hx
      rcases List.mem_append.1 hx with hxt | hxd
      · rw [List.mem_take_iff_getElem] at hxt
        obtain ⟨k, hk, hget⟩ := hxt
        have hklen : k < store.length := lt_of_lt_of_le hk (min_le_right _ _)
        have hki : k < i := lt_of_lt_of_le hk (min_le_left _ _)
        have hcontra : k = i := by
          refine huniq k hklen ?_
          rw [List.get_eq_getElem, hget]
          exact hb
        omega
      · rw [List.mem_drop_iff_getElem] at hxd
        obtain ⟨k, hk, hget⟩ := hxd
        have hklen : i + 1 + k < store.length := by omega
        have hcontra : i + 1 + k = i := by
          refine huniq (i + 1 + k) hklen ?_
          rw [List.get_eq_getElem, hget]
          exact hb
        omega
  have hv2 : validate ⟨some pb, some pq⟩ .query (store.eraseIdx i) = -1 := by
    unfold validate
    simp only [getSource]
    simp only [hqid, hts, if_true]
    rw [List.findIdx?_eq_none_iff.2 hnomatch]
  refine ⟨{ id := .num (parseFloatStr s),
            name := orDefault pb.name (.str "No Name"),
            address := orDefault pb.address (.str "No Address"),
            phone := orDefault pb.phone (.str "No Phone"),
            email := orDefault pb.email (.str "No Email"),
            lastupdate := .str now,
            country := orDefault pb.country (.str "No Country"),
            active := orDefault pb.active (.boolean true),
            contact := orDefault pb.contact (.str "No Contact") }, ?_, rfl, rfl, ?_⟩
  · unfold changeOrDelete
    simp [hv1, hgen, hine, parseFloatJS]
  · unfold changeOrDelete
    simp [hv2]

/-- Fixture: the delete query carrying id `"1"` (C5 witness). -/
def qC5w : Payload := { emptyPayload with id := some (.str "1") }

/-- Witness for the C5 theorem on the Store `[seedA]`: deleting id `"1"`
removes the only record, and a repeated delete reports `RecordNotFound`. -/
theorem delete_removes_then_not_found_witness :
    (([seedA] : List Customer).findIdx? (recordMatches (.str "1")) = some 0) ∧
    (∃ c : Customer,
      changeOrDelete ⟨some emptyPayload, some qC5w⟩ [seedA] false "T0" =
        .ok (c, ([seedA] : List Customer).eraseIdx 0) ∧
      c.lastupdate = .str "T0" ∧ c.id = .num (parseFloatStr "1") ∧
      changeOrDelete ⟨some emptyPayload, some qC5w⟩
        (([seedA] : List Customer).eraseIdx 0) false "T0" = .error .recordNotFound) := by
  refine ⟨by decide, delete_removes_then_not_found emptyPayload qC5w [seedA] "T0" "1" 0
    rfl rfl (by decide) (by decide) ?_⟩
  intro j hj _
  simp only [List.length_singleton] at hj
  omega
